import Mathlib

/-
Verification of the go-signals repository: a shallow embedding of its
signal/receiver/pool core (signals.go, receivers.go, pool.go and the
dynamically-typed variant of the signal file) together with theorems that
settle the claims of the specification against the code.

Modelling conventions:
- Receiver identity (the ID method, a memory address in the source) is a
  natural number; distinct live receivers carry distinct numbers.
- A Go function that can panic or deadlock is embedded as a function into
  Option: none models a run that panics (index out of range, explicit
  panic call) or blocks forever on a lock it can never acquire.
- Go error values are embedded in the inductive SigError below: the
  composite constructor is the Error struct (a message plus the list of
  underlying per-receiver errors); the plain constructor is any error value
  carrying only a message (the string-based error type and the errors
  produced by fmt.Errorf in the dynamically-typed signal file).
-/

namespace GoSignals

/-- Go error values as they occur in the repository: composite is the
Error struct of the generic variant (message plus underlying error list,
inspectable via SignalError and Len); plain is an error carrying only a
message (the string error type and fmt.Errorf results of the
dynamically-typed variant). -/
inductive SigError (E : Type) where
  | plain (msg : String)
  | composite (msg : String) (errors : List E)
deriving DecidableEq, Repr

/-- Receiver of the generic variant, as seen by Send: its identity and the
result its wrapped callback returns for a sent value (none models a nil
error). Receive(s, v) calls the callback directly (receivers file). -/
structure Recv (V E : Type) where
  id : Nat
  cb : V → Option E

/-- Loop body of Send in the generic signal file: for each receiver in
order, err = receiver.Receive(s, value); non-nil errors are appended to
errs. calls records each Receive invocation as (receiver id, value). -/
def SendLoop (v : V) : List (Recv V E) → List (Nat × V) → List E →
    List (Nat × V) × List E
  | [], calls, errs => (calls, errs)
  | r :: rest, calls, errs =>
    match r.cb v with
    | some err => SendLoop v rest (calls ++ [(r.id, v)]) (errs ++ [err])
    | none => SendLoop v rest (calls ++ [(r.id, v)]) errs

/-- Outcome of one synchronous dispatch: the ordered Receive invocations
and the returned error value. -/
structure SendOut (V E : Type) where
  calls : List (Nat × V)
  result : Option (SigError E)
deriving Repr

/-- Send of the generic signal file: error if there are no receivers;
otherwise dispatch to every receiver in order, and return the composite
Error (message reporting the failure count, carrying the collected list)
when at least one receiver failed, nil otherwise. -/
def Send (rs : List (Recv V E)) (v : V) : SendOut V E :=
  if rs.length = 0 then
    { calls := [], result := some (SigError.composite "no receivers" []) }
  else
    let p := SendLoop v rs [] []
    { calls := p.1,
      result :=
        if p.2.length > 0 then
          some (SigError.composite
            ("error sending signal to " ++ toString p.2.length ++ " receivers")
            p.2)
        else none }

/-- Errors produced by the callbacks of a receiver list at a value, in
receiver order (the non-nil results). -/
def failures (rs : List (Recv V E)) (v : V) : List E :=
  rs.filterMap (fun r => r.cb v)

/-- Go values of the dynamically-typed variant (the any type as used by
the repository: strings, integers, and slices of values). -/
inductive GoVal where
  | str (s : String)
  | int (n : Int)
  | slice (l : List GoVal)

/-- Receiver of the dynamically-typed variant: identity plus the result of
its callback on the variadic argument list it is invoked with. -/
structure DRecv (E : Type) where
  id : Nat
  cb : List GoVal → Option E

/-- Receive of the dynamically-typed receiver file: r.cb(s, value...) —
the variadic argument list is spread into the callback unchanged. -/
def DynReceive (r : DRecv E) (args : List GoVal) : Option E :=
  r.cb args

/-- Outcome of one dispatch of the dynamically-typed Send: the ordered
Receive invocations (receiver id, variadic argument list) and the
returned error value. -/
structure DynOut (E : Type) where
  calls : List (Nat × List GoVal)
  result : Option (SigError E)

/-- Loop body of Send in the dynamically-typed signal file: the statement
receiver.Receive(s, value) passes the payload slice value as ONE variadic
element, so Receive (and hence the callback) gets the single-element
argument list [slice vs]. Non-nil errors are collected in order. -/
def DynSendLoop (vs : List GoVal) : List (DRecv E) →
    List (Nat × List GoVal) → List E → List (Nat × List GoVal) × List E
  | [], calls, errs => (calls, errs)
  | r :: rest, calls, errs =>
    match DynReceive r [GoVal.slice vs] with
    | some err =>
        DynSendLoop vs rest (calls ++ [(r.id, [GoVal.slice vs])]) (errs ++ [err])
    | none => DynSendLoop vs rest (calls ++ [(r.id, [GoVal.slice vs])]) errs

/-- Send of the dynamically-typed signal file: the no-receivers error is
the string error type (no underlying list); when receivers fail, the
result is fmt.Errorf with the count in the message — again a plain error
that carries no list of the underlying failures. -/
def DynSend (rs : List (DRecv E)) (vs : List GoVal) : DynOut E :=
  if rs.length = 0 then
    { calls := [], result := some (SigError.plain "no receivers") }
  else
    let p := DynSendLoop vs rs [] []
    { calls := p.1,
      result :=
        if p.2.length > 0 then
          some (SigError.plain
            ("error sending signal to " ++ toString p.2.length ++ " receivers"))
        else none }

/-- Errors produced by the dynamically-typed callbacks for payload vs, in
receiver order. Each callback is invoked with the packed argument list
[slice vs]. -/
def dynFailures (rs : List (DRecv E)) (vs : List GoVal) : List E :=
  rs.filterMap (fun r => DynReceive r [GoVal.slice vs])

/-- Per-receiver results of SendAsync: each launched goroutine sends
exactly one value, receiver.Receive(s, value), into the buffered channel. -/
def asyncResults (rs : List (Recv V E)) (v : V) : List (Option E) :=
  rs.map (fun r => r.cb v)

/-- Observable contents of the channel returned by SendAsync: one
goroutine per receiver pushes its single result, the coordinator waits for
all of them and then closes the channel, so a complete drain of the
channel yields the per-receiver results in some arrival order (a
permutation of them). -/
def AsyncChan (rs : List (Recv V E)) (v : V) (out : List (Option E)) : Prop :=
  out.Perm (asyncResults rs v)

/-- SendLoop appends, to whatever accumulators it is given, one Receive
call per receiver in order and exactly the non-nil callback results. -/
theorem SendLoop_eq (v : V) (rs : List (Recv V E)) :
    ∀ calls errs, SendLoop v rs calls errs =
      (calls ++ rs.map (fun r => (r.id, v)), errs ++ failures rs v) := by
  induction rs with
  | nil => intro calls errs; simp [SendLoop, failures]
  | cons r rest ih =>
    intro calls errs
    cases h : r.cb v with
    | some err =>
      simp [SendLoop, h, ih, failures, List.filterMap_cons, List.append_assoc]
    | none =>
      simp [SendLoop, h, ih, failures, List.filterMap_cons]

/-- DynSendLoop appends one Receive call per receiver, each with the
packed argument list [slice vs], and exactly the non-nil results. -/
theorem DynSendLoop_eq (vs : List GoVal) (rs : List (DRecv E)) :
    ∀ calls errs, DynSendLoop vs rs calls errs =
      (calls ++ rs.map (fun r => (r.id, [GoVal.slice vs])),
       errs ++ dynFailures rs vs) := by
  induction rs with
  | nil => intro calls errs; simp [DynSendLoop, dynFailures]
  | cons r rest ih =>
    intro calls errs
    cases h : DynReceive r [GoVal.slice vs] with
    | some err =>
      simp [DynSendLoop, h, ih, dynFailures, List.filterMap_cons,
        List.append_assoc]
    | none =>
      simp [DynSendLoop, h, ih, dynFailures, List.filterMap_cons]

/-- State of the Disconnect loop of the signal file: the current receiver
collection (identities), the deleted counter, and the receivers whose
back-reference has been set to nil (o.Signal(nil)), in that order. -/
structure DiscSt where
  receivers : List Nat
  deleted : Nat
  cleared : List Nat
deriving DecidableEq, Repr

/-- Indexing a Go slice with an int index: a negative index or an index
at or beyond the length is a runtime panic (none). -/
def sliceIdx (l : List Nat) (i : Int) : Option Nat :=
  if 0 ≤ i then l.get? i.toNat else none

/-- Inner loop of Disconnect: for each o of the given receivers, compare
s.receivers[index].ID() with o.ID(); on a match, set the back-reference of
o to nil, remove the entry at index from the collection, and increment
deleted. index is fixed for the whole inner loop, so after a removal the
element that shifted into position index is compared against the remaining
given receivers; the indexing itself can panic (none). -/
def DiscInner (index : Int) : List Nat → DiscSt → Option DiscSt
  | [], st => some st
  | o :: rest, st =>
    match sliceIdx st.receivers index with
    | none => none
    | some rid =>
      if rid = o then
        DiscInner index rest
          { receivers := st.receivers.eraseIdx index.toNat,
            deleted := st.deleted + 1,
            cleared := st.cleared ++ [o] }
      else DiscInner index rest st

/-- Outer loop of Disconnect: i ranges over the ORIGINAL length of the
collection (a Go range loop fixes its iteration count when it starts);
each iteration computes index = i - deleted (an int, possibly negative)
and runs the inner loop. -/
def DiscOuter (others : List Nat) : Nat → Nat → DiscSt → Option DiscSt
  | 0, _, st => some st
  | n + 1, i, st =>
    (DiscInner ((i : Int) - (st.deleted : Int)) others st).bind
      (DiscOuter others n (i + 1))

/-- Disconnect of the signal file (identical in both variants): panics on
an empty argument list; otherwise runs the removal loop. A none result is
a run that panicked. On success it yields the remaining collection and
the receivers whose back-reference was cleared, in clearing order. -/
def Disconnect (receivers others : List Nat) : Option (List Nat × List Nat) :=
  if others.isEmpty then none
  else
    (DiscOuter others receivers.length 0
        { receivers := receivers, deleted := 0, cleared := [] }).map
      (fun st => (st.receivers, st.cleared))

/-- World for Clear in a single-signal universe: whether the mutex of the
signal is held, the receiver collection, and the identities whose
back-reference currently points at this signal (all other receivers have a
nil back-reference). -/
structure ClearWorld where
  locked : Bool
  receivers : List Nat
  attached : List Nat
deriving DecidableEq, Repr

/-- Loop of Clear: receiver.Disconnect() for each receiver of the
collection. A receiver with a nil back-reference returns the
not-connected error, which Clear ignores. A receiver whose back-reference
is this signal calls signal.Disconnect(r), whose first statement locks the
mutex of the signal — the mutex is already held by Clear and a Go mutex is
not reentrant, so that call never returns (none). -/
def ClearLoop : List Nat → ClearWorld → Option ClearWorld
  | [], w => some w
  | r :: rest, w =>
    if r ∈ w.attached then none
    else ClearLoop rest w

/-- Clear of the signal file: lock the mutex, call receiver.Disconnect()
on every receiver of the collection, then reset the collection to empty
and release the mutex. -/
def Clear (w : ClearWorld) : Option ClearWorld :=
  if w.locked then none
  else
    (ClearLoop w.receivers { w with locked := true }).map
      (fun w2 => { w2 with receivers := [], locked := false })

/-- Receiver-collection component of Connect of the signal file: each
given receiver is appended to the collection in argument order (the
back-reference update of the same loop is modelled in ConnectM below). -/
def Connect (receivers newRecvs : List Nat) : List Nat :=
  newRecvs.foldl (fun acc r => acc ++ [r]) receivers

/-- Collection of a signal after a sequence of Connect calls starting
from an empty collection. -/
def runConnects (ops : List (List Nat)) : List Nat :=
  ops.foldl (fun st rs => Connect st rs) []

/-- World with several signals: sigRecvs indexes the receiver collection
of each signal by signal identity, backref indexes the signal
back-reference of each receiver by receiver identity. -/
structure MWorld where
  sigRecvs : List (List Nat)
  backref : List (Option Nat)
deriving DecidableEq, Repr

/-- Connect of the signal file on the multi-signal world: for each given
receiver, receiver.Signal(s) overwrites its back-reference with s, and the
receiver is appended to the collection of s. Nothing removes the receiver
from the collection of a previously attached signal. -/
def ConnectM (w : MWorld) (s : Nat) (rs : List Nat) : MWorld :=
  rs.foldl
    (fun w r =>
      { sigRecvs := w.sigRecvs.set s ((w.sigRecvs.getD s []) ++ [r]),
        backref := w.backref.set r (some s) })
    w

/-- Pool of signals together with the signal and receiver stores they
point into: names is the name-to-signal map, sigs the receiver collection
of each allocated signal (indexed by signal identity), recvBack the signal
back-reference of each allocated receiver (indexed by receiver identity). -/
structure PoolState where
  names : List (String × Nat)
  sigs : List (List Nat)
  recvBack : List (Option Nat)
deriving DecidableEq, Repr

/-- Empty pool: no names, no signals, no receivers. -/
def PoolState.empty : PoolState :=
  { names := [], sigs := [], recvBack := [] }

/-- Lookup in the name-to-signal map (the load method of the pool). -/
def loadAssoc : List (String × Nat) → String → Option Nat
  | [], _ => none
  | (k, v) :: rest, n => if k = n then some v else loadAssoc rest n

/-- Store into the name-to-signal map (the store method of the pool): a
map assignment replaces the binding of the key when present, otherwise
adds it. -/
def storeAssoc : List (String × Nat) → String → Nat → List (String × Nat)
  | [], n, s => [(n, s)]
  | (k, v) :: rest, n, s =>
    if k = n then (n, s) :: rest else (k, v) :: storeAssoc rest n s

/-- load of the pool file: read the map under the read lock. -/
def PoolState.load (st : PoolState) (name : String) : Option Nat :=
  loadAssoc st.names name

/-- Get of the pool file: return the stored signal when the name is
present; otherwise allocate a fresh signal with an empty receiver
collection, store it under the name and return it. -/
def PoolState.Get (st : PoolState) (name : String) : Nat × PoolState :=
  match st.load name with
  | some sid => (sid, st)
  | none =>
    (st.sigs.length,
     { st with
        names := storeAssoc st.names name st.sigs.length,
        sigs := st.sigs ++ [[]] })

/-- Listen of the pool file: m.Get(name).Connect(new receiver with the
given callback). The fresh receiver starts with a nil back-reference;
Connect then sets its back-reference to the signal and appends it to the
collection of the signal. The Go function declares no results, so the
caller receives nothing back; the second component is that (absent)
return value, hence always none. -/
def PoolState.Listen (st : PoolState) (name : String) :
    PoolState × Option Nat :=
  let p := st.Get name
  let rid := p.2.recvBack.length
  let st2 := { p.2 with recvBack := p.2.recvBack ++ [none] }
  let st3 :=
    { st2 with
        recvBack := st2.recvBack.set rid (some p.1),
        sigs := st2.sigs.set p.1 ((st2.sigs.getD p.1 []) ++ [rid]) }
  (st3, none)

mutual

/-- Nesting depth of a Go value: a slice is strictly deeper than every
value it contains. -/
def GoVal.depth : GoVal → Nat
  | .str _ => 0
  | .int _ => 0
  | .slice l => GoVal.depthList l + 1

/-- Greatest nesting depth among the values of a list. -/
def GoVal.depthList : List GoVal → Nat
  | [] => 0
  | v :: t => max (GoVal.depth v) (GoVal.depthList t)

end

/-- Number of entries a filterMap keeps equals the number of entries whose
image is non-nil. -/
theorem length_filterMap_eq_length_filter (f : α → Option β) (l : List α) :
    (l.filterMap f).length = (l.filter (fun a => (f a).isSome)).length := by
  induction l with
  | nil => rfl
  | cons a t ih => cases h : f a <;> simp [List.filterMap_cons, h, ih]

/-- Setting a valid index makes that index read back the written value. -/
theorem get?_set_self (l : List α) (i : Nat) (a : α) (h : i < l.length) :
    (l.set i a).get? i = some a := by
  induction l generalizing i with
  | nil => simp at h
  | cons x t ih =>
    cases i with
    | zero => rfl
    | succ n => exact ih n (by simpa using h)

/-- Setting one index leaves every other index unchanged. -/
theorem get?_set_other (l : List α) (i j : Nat) (a : α) (h : i ≠ j) :
    (l.set i a).get? j = l.get? j := by
  induction l generalizing i j with
  | nil => rfl
  | cons x t ih =>
    cases i with
    | zero =>
      cases j with
      | zero => exact absurd rfl h
      | succ m => rfl
    | succ n =>
      cases j with
      | zero => rfl
      | succ m => exact ih n m (fun hh => h (by rw [hh]))

/-- The list whose one element is the slice packing vs is never the list
vs itself (the packed form is strictly deeper). -/
theorem slice_pack_ne (vs : List GoVal) : [GoVal.slice vs] ≠ vs := by
  intro h
  cases vs with
  | nil => cases h
  | cons v t =>
    have h1 : GoVal.slice (v :: t) = v := by injection h
    have h2 : [] = t := by injection h
    subst h2
    have h3 := congrArg GoVal.depth h1
    simp [GoVal.depth, GoVal.depthList] at h3

/-- C1: the claim says Disconnect, for every non-empty argument list,
completes normally and removes exactly the matching entries in order while
clearing their back-references. The code instead panics with an index out
of range on natural inputs: disconnecting both receivers of the
two-element collection [1, 2] in one call removes both during the first
outer iteration, so the second outer iteration computes index = 1 - 2 = -1
and the access s.receivers[index] panics (first conjunct, none = panic).
The second conjunct shows the run of the test suite, Disconnect(r1, r3) on
[r1, r2, r3], which happens to complete and behave as the claim says,
confirming that the claimed behaviour is the intent of the code. -/
theorem C1_disconnect_panics_on_pair :
    Disconnect [1, 2] [1, 2] = none ∧
    Disconnect [1, 2, 3] [1, 3] = some ([2], [1, 3]) := by decide

/-- C2 helper: the length of the underlying error list of a result, when
the result is a composite error that carries such a list; none when the
result is nil or an error without an underlying list. This is the
inspection the claim promises the caller can perform. -/
def underlyingLen : Option (SigError E) → Option Nat
  | some (SigError.composite _ l) => some l.length
  | _ => none

/-- Receiver of the dynamically-typed variant whose callback always fails
(with error 7). -/
def cexDynRecv : DRecv Nat :=
  { id := 0, cb := fun _ => some 7 }

/-- C2 counterexample: in the dynamically-typed signal file, Send to one
receiver whose callback fails (K = 1) does return an error, but that
error is fmt.Errorf output — a plain error value with no underlying
failure list at all — so the claimed composite error whose list has
length K does not exist. -/
theorem C2_dynamic_send_has_no_error_list :
    ((DynSend [cexDynRecv] [GoVal.int 0]).result).isSome = true ∧
    underlyingLen (DynSend [cexDynRecv] [GoVal.int 0]).result = none :=
  ⟨rfl, rfl⟩

/-- C2 amended: in the generic variant the claim holds exactly — Send on
zero receivers returns the no-receivers error, on N receivers with K
failing callbacks returns nil when K = 0 and otherwise the composite
Error carrying precisely the K collected failures; K is the number of
receivers whose callback returned non-nil. In the dynamically-typed
variant the same dispatch returns, for K at least 1, a plain error whose
message reports K but which carries no underlying list. -/
theorem C2_send_error_aggregation (rs : List (Recv V E)) (v : V)
    (ds : List (DRecv F)) (vs : List GoVal) :
    (Send rs v).result =
      (if rs.length = 0 then some (SigError.composite "no receivers" [])
       else if (failures rs v).length = 0 then none
       else some (SigError.composite
         ("error sending signal to " ++ toString (failures rs v).length
           ++ " receivers")
         (failures rs v))) ∧
    (failures rs v).length =
      (rs.filter (fun r => (r.cb v).isSome)).length ∧
    (DynSend ds vs).result =
      (if ds.length = 0 then some (SigError.plain "no receivers")
       else if (dynFailures ds vs).length = 0 then none
       else some (SigError.plain
         ("error sending signal to " ++ toString (dynFailures ds vs).length
           ++ " receivers"))) := by
  refine ⟨?_, ?_, ?_⟩
  · by_cases h : rs.length = 0
    · simp [Send, h]
    · simp only [Send, h, if_false, SendLoop_eq, List.nil_append]
      by_cases hf : (failures rs v).length = 0
      · simp [hf]
      · simp [hf, Nat.pos_of_ne_zero hf]
  · exact length_filterMap_eq_length_filter _ _
  · by_cases h : ds.length = 0
    · simp [DynSend, h]
    · simp only [DynSend, h, if_false, DynSendLoop_eq, List.nil_append]
      by_cases hf : (dynFailures ds vs).length = 0
      · simp [hf]
      · simp [hf, Nat.pos_of_ne_zero hf]

/-- C3: one synchronous Send invokes Receive exactly once per receiver of
the collection, in collection order, with the sent value, and runs to
completion over all receivers — the recorded invocation sequence is
exactly the receiver list in order, independent of which callbacks fail
(the callbacks that fail only land in the error list, they never shorten
the invocation sequence). -/
theorem C3_send_invokes_in_order_to_completion
    (rs : List (Recv V E)) (v : V) :
    (Send rs v).calls = rs.map (fun r => (r.id, v)) := by
  cases rs with
  | nil => rfl
  | cons r rest => simp [Send, SendLoop_eq]

/-- C4: the claim says Clear detaches every attached receiver and resets
the collection. The code instead deadlocks on every signal with at least
one normally attached receiver: Clear holds the mutex of the signal and
calls receiver.Disconnect(), which calls signal.Disconnect(r), whose
first statement locks the same non-reentrant mutex (first conjunct,
none = the goroutine blocks forever). Clear on a signal with an empty
collection completes (second conjunct). -/
theorem C4_clear_deadlocks_on_attached_receiver :
    Clear { locked := false, receivers := [7], attached := [7] } = none ∧
    Clear { locked := false, receivers := [], attached := [] } =
      some { locked := false, receivers := [], attached := [] } := by decide

/-- C5: a complete drain of the channel returned by SendAsync yields
exactly one result per attached receiver — its length equals the receiver
count whatever the arrival order and however many results are failures —
and for zero receivers the channel yields zero results (it closes
immediately, no no-receivers error is produced because SendAsync performs
no empty-collection check). -/
theorem C5_sendAsync_one_result_per_receiver
    (rs : List (Recv V E)) (v : V) (out : List (Option E))
    (h : AsyncChan rs v out) :
    out.length = rs.length ∧ (rs = [] → out = []) := by
  constructor
  · have hl := h.length_eq
    simpa [asyncResults] using hl
  · intro hrs
    subst hrs
    exact h.eq_nil

/-- C5 witness: a two-receiver dispatch whose results arrive in swapped
order still yields exactly two results; the empty clause is vacuous. -/
theorem C5_sendAsync_witness :
    AsyncChan [({ id := 0, cb := fun _ => some 3 } : Recv Nat Nat),
        { id := 1, cb := fun _ => none }] 0 [none, some 3] ∧
    ([none, some 3] : List (Option Nat)).length =
      [({ id := 0, cb := fun _ => some 3 } : Recv Nat Nat),
        { id := 1, cb := fun _ => none }].length ∧
    ([({ id := 0, cb := fun _ => some 3 } : Recv Nat Nat),
        { id := 1, cb := fun _ => none }] = [] →
      ([none, some 3] : List (Option Nat)) = []) := by
  have h : AsyncChan [({ id := 0, cb := fun _ => some 3 } : Recv Nat Nat),
      { id := 1, cb := fun _ => none }] 0 [none, some 3] :=
    List.Perm.swap (some 3) none []
  exact ⟨h, (C5_sendAsync_one_result_per_receiver _ _ _ h).1,
    fun hc => by cases hc⟩

/-- C10: in the dynamically-typed variant, Send invokes every receiver
with the single-element variadic argument list that packs the whole
payload slice as one element (the statement receiver.Receive(s, value)
passes the slice value as one variadic argument), and that packed list is
never the payload list itself, so the callback does not receive the n
payload values as n separate variadic arguments. -/
theorem C10_dynamic_send_packs_payload (rs : List (DRecv E))
    (vs : List GoVal) :
    (DynSend rs vs).calls = rs.map (fun r => (r.id, [GoVal.slice vs])) ∧
    [GoVal.slice vs] ≠ vs := by
  constructor
  · cases rs with
    | nil => rfl
    | cons r rest => simp [DynSend, DynSendLoop_eq]
  · exact slice_pack_ne vs

/-- Reading a list extended by one element at the old length finds the
new element. -/
theorem get?_append_len (l : List α) (a : α) :
    (l ++ [a]).get? l.length = some a := by
  induction l with
  | nil => rfl
  | cons x t ih => simp [ih]

/-- Lookup after a store at the same name finds the stored signal. -/
theorem loadAssoc_storeAssoc (l : List (String × Nat)) (n : String)
    (s : Nat) : loadAssoc (storeAssoc l n s) n = some s := by
  induction l with
  | nil => simp [storeAssoc, loadAssoc]
  | cons p t ih =>
    obtain ⟨k, v⟩ := p
    by_cases h : k = n
    · simp [storeAssoc, h, loadAssoc]
    · simp [storeAssoc, h, loadAssoc, ih]

/-- A successful lookup exhibits its binding as a member of the map. -/
theorem loadAssoc_mem (l : List (String × Nat)) (n : String) (s : Nat)
    (h : loadAssoc l n = some s) : (n, s) ∈ l := by
  induction l with
  | nil => cases h
  | cons p t ih =>
    obtain ⟨k, v⟩ := p
    by_cases hk : k = n
    · subst hk
      simp [loadAssoc] at h
      subst h
      exact List.mem_cons_self _ _
    · simp [loadAssoc, hk] at h
      exact List.mem_cons_of_mem _ (ih h)

/-- C6: Get returns the stored signal when one exists under the name and
leaves the pool unchanged (second conjunct); otherwise it allocates a
fresh signal — one the pool did not contain — with an empty receiver
collection and stores it under the name (third conjunct); consequently a
second Get for the same name returns exactly the signal and pool the
first one produced (first conjunct). -/
theorem C6_pool_get_or_create (st : PoolState) (name : String) :
    (st.Get name).2.Get name = ((st.Get name).1, (st.Get name).2) ∧
    (∀ sid, st.load name = some sid → st.Get name = (sid, st)) ∧
    (st.load name = none →
      (st.Get name).1 = st.sigs.length ∧
      (st.Get name).2.sigs.get? (st.Get name).1 = some [] ∧
      (st.Get name).2.load name = some (st.Get name).1) := by
  cases h : st.load name with
  | some sid =>
    refine ⟨?_, ?_, ?_⟩
    · simp [PoolState.Get, h]
    · intro s hs
      injection hs with hs2
      subst hs2
      simp [PoolState.Get, h]
    · intro hn
      exact Option.noConfusion hn
  | none =>
    have hload2 :
        ({ st with
            names := storeAssoc st.names name st.sigs.length,
            sigs := st.sigs ++ [[]] } : PoolState).load name =
          some st.sigs.length := by
      simp [PoolState.load, loadAssoc_storeAssoc]
    refine ⟨?_, ?_, ?_⟩
    · simp [PoolState.Get, h, hload2]
    · intro s hs
      exact Option.noConfusion hs
    · intro _
      refine ⟨by simp [PoolState.Get, h], ?_, ?_⟩
      · simp [PoolState.Get, h, get?_append_len]
      · simp [PoolState.Get, h, hload2]

/-- C6 witness: on the empty pool the name "a" is absent, so Get creates
signal 0, stores it, and gives it an empty receiver collection. -/
theorem C6_pool_get_witness :
    PoolState.empty.load "a" = none ∧
    ((PoolState.empty.Get "a").1 = PoolState.empty.sigs.length ∧
     (PoolState.empty.Get "a").2.sigs.get? (PoolState.empty.Get "a").1 =
       some [] ∧
     (PoolState.empty.Get "a").2.load "a" =
       some (PoolState.empty.Get "a").1) :=
  ⟨rfl, (C6_pool_get_or_create PoolState.empty "a").2.2 rfl⟩

/-- C7 counterexample: connecting receiver 5 twice to a signal that
started empty leaves the collection [5, 5] — two entries with the same
identity — so the no-duplicate invariant claimed after arbitrary Connect
sequences is false. -/
theorem C7_duplicate_connect :
    runConnects [[5], [5]] = [5, 5] ∧
    ¬ (runConnects [[5], [5]]).Nodup := by decide

/-- The Connect loop appends its receivers to the collection. -/
theorem connect_eq_append (st rs : List Nat) : Connect st rs = st ++ rs := by
  induction rs generalizing st with
  | nil => simp [Connect]
  | cons r t ih =>
    show Connect (st ++ [r]) t = st ++ (r :: t)
    rw [ih]
    simp

/-- A Connect sequence builds exactly the concatenation of its argument
lists. -/
theorem runConnects_eq_join (ops : List (List Nat)) :
    runConnects ops = ops.flatten := by
  have hgen : ∀ acc, List.foldl (fun st rs => Connect st rs) acc ops =
      acc ++ ops.flatten := by
    induction ops with
    | nil => intro acc; simp
    | cons o t ih =>
      intro acc
      show List.foldl (fun st rs => Connect st rs) (Connect acc o) t = _
      rw [ih, connect_eq_append]
      simp
  simpa using hgen []

/-- C7 amended: the collection after any sequence of Connect calls on a
signal starting empty equals the concatenation of the connected receiver
lists in attachment order, so it holds no duplicate identities precisely
when no receiver identity is connected twice across the sequence; Connect
itself appends unconditionally and never filters duplicates. -/
theorem C7_connect_keeps_distinct (ops : List (List Nat))
    (h : ops.flatten.Nodup) :
    runConnects ops = ops.flatten ∧ (runConnects ops).Nodup := by
  have heq := runConnects_eq_join ops
  exact ⟨heq, heq ▸ h⟩

/-- C7 witness: two Connect calls with the distinct receivers 1 and 2
yield the duplicate-free collection [1, 2]. -/
theorem C7_connect_keeps_distinct_witness :
    ([[1], [2]] : List (List Nat)).flatten.Nodup ∧
    (runConnects [[1], [2]] = ([[1], [2]] : List (List Nat)).flatten ∧
     (runConnects [[1], [2]]).Nodup) :=
  ⟨by decide, C7_connect_keeps_distinct [[1], [2]] (by decide)⟩

/-- C8 counterexample: starting from two empty signals and the detached
receiver 0, Connect of the receiver to signal 0 and then to signal 1
leaves it in the collections of BOTH signals at once — its back-reference
points at signal 1 while it still sits in the collection of signal 0 — so
the claimed at-most-one-collection invariant is false. -/
theorem C8_receiver_in_two_collections :
    (ConnectM (ConnectM { sigRecvs := [[], []], backref := [none] } 0 [0])
        1 [0]).sigRecvs.getD 0 [] = [0] ∧
    (ConnectM (ConnectM { sigRecvs := [[], []], backref := [none] } 0 [0])
        1 [0]).sigRecvs.getD 1 [] = [0] ∧
    (ConnectM (ConnectM { sigRecvs := [[], []], backref := [none] } 0 [0])
        1 [0]).backref.getD 0 none = some 1 := by decide

/-- Connecting receivers to signal s never touches the collection of a
different signal. -/
theorem connectM_sigRecvs_other (w : MWorld) (s : Nat) (rs : List Nat)
    (t : Nat) (ht : t ≠ s) :
    (ConnectM w s rs).sigRecvs.get? t = w.sigRecvs.get? t := by
  induction rs generalizing w with
  | nil => rfl
  | cons r rest ih =>
    show (ConnectM
        { sigRecvs := w.sigRecvs.set s ((w.sigRecvs.getD s []) ++ [r]),
          backref := w.backref.set r (some s) } s rest).sigRecvs.get? t = _
    rw [ih]
    exact get?_set_other _ s t _ (fun hh => ht hh.symm)

/-- Connecting a list of receivers preserves the length of the
back-reference store. -/
theorem connectM_backref_length (w : MWorld) (s : Nat) (rs : List Nat) :
    (ConnectM w s rs).backref.length = w.backref.length := by
  induction rs generalizing w with
  | nil => rfl
  | cons r rest ih =>
    show (ConnectM
        { sigRecvs := w.sigRecvs.set s ((w.sigRecvs.getD s []) ++ [r]),
          backref := w.backref.set r (some s) } s rest).backref.length = _
    rw [ih]
    simp

/-- Connecting receivers leaves the back-reference of a receiver that is
not among them unchanged. -/
theorem connectM_backref_not_mem (w : MWorld) (s : Nat) (rs : List Nat)
    (r : Nat) (h : r ∉ rs) :
    (ConnectM w s rs).backref.get? r = w.backref.get? r := by
  induction rs generalizing w with
  | nil => rfl
  | cons x rest ih =>
    have hx : r ≠ x := fun he => h (he ▸ List.mem_cons_self x rest)
    show (ConnectM
        { sigRecvs := w.sigRecvs.set s ((w.sigRecvs.getD s []) ++ [x]),
          backref := w.backref.set x (some s) } s rest).backref.get? r = _
    rw [ih _ (fun hm => h (List.mem_cons_of_mem _ hm))]
    exact get?_set_other _ x r _ (fun he => hx he.symm)

/-- After Connect of a receiver list to signal s, every receiver of the
list has back-reference s. -/
theorem connectM_backref_mem (w : MWorld) (s : Nat) (rs : List Nat)
    (r : Nat) (hr : r ∈ rs) (hlen : r < w.backref.length) :
    (ConnectM w s rs).backref.get? r = some (some s) := by
  induction rs generalizing w with
  | nil => cases hr
  | cons x rest ih =>
    by_cases hm : r ∈ rest
    · exact ih _ hm (by simpa using hlen)
    · have hx : r = x := by
        cases hr with
        | head => rfl
        | tail _ hh => exact absurd hh hm
      subst hx
      show (ConnectM
          { sigRecvs := w.sigRecvs.set s ((w.sigRecvs.getD s []) ++ [r]),
            backref := w.backref.set r (some s) } s rest).backref.get? r = _
      rw [connectM_backref_not_mem _ _ _ _ hm]
      exact get?_set_self _ _ _ (by simpa using hlen)

/-- C8 amended: the back-reference of a receiver always names the signal
it was most recently connected to — after Connect of receivers rs to
signal s, every receiver of rs has back-reference s — and Connect touches
no other signal collection; but since Connect never removes the receiver
from the collection of a previously attached signal, a receiver can sit
in several collections at once, so membership in at most one collection
holds only when a receiver is never connected to a second signal without
first being disconnected. -/
theorem C8_backref_tracks_last_connect (w : MWorld) (s : Nat)
    (rs : List Nat) (r : Nat) (hr : r ∈ rs) (hlen : r < w.backref.length)
    (t : Nat) (ht : t ≠ s) :
    (ConnectM w s rs).backref.get? r = some (some s) ∧
    (ConnectM w s rs).sigRecvs.get? t = w.sigRecvs.get? t :=
  ⟨connectM_backref_mem w s rs r hr hlen,
   connectM_sigRecvs_other w s rs t ht⟩

/-- C8 witness: connecting receiver 0 to signal 1 of a two-signal world
sets its back-reference to signal 1 and leaves the collection of signal 0
untouched. -/
theorem C8_backref_witness :
    (0 ∈ [0] ∧
     0 < ({ sigRecvs := [[], []], backref := [none] } : MWorld).backref.length ∧
     (0 : Nat) ≠ 1) ∧
    ((ConnectM { sigRecvs := [[], []], backref := [none] } 1 [0]).backref.get? 0 =
        some (some 1) ∧
     (ConnectM { sigRecvs := [[], []], backref := [none] } 1 [0]).sigRecvs.get? 0 =
        ({ sigRecvs := [[], []], backref := [none] } : MWorld).sigRecvs.get? 0) :=
  ⟨⟨by decide, by decide, by decide⟩,
   C8_backref_tracks_last_connect
     { sigRecvs := [[], []], backref := [none] } 1 [0] 0 (by decide)
     (by decide) 0 (by decide)⟩

/-- C9 counterexample: Listen on the empty pool under the name "evt"
creates receiver 0, connects it to the created signal 0 (the collection
of signal 0 becomes [0] and the back-reference of receiver 0 becomes
signal 0), yet the call returns none — not the created receiver 0 — so
the claim that Listen returns the created Receiver to the caller is
false: the Go function declares no results. -/
theorem C9_listen_returns_nothing :
    (PoolState.empty.Listen "evt").2 = none ∧
    ¬ (PoolState.empty.Listen "evt").2 = some 0 ∧
    (PoolState.empty.Listen "evt").1.sigs.getD 0 [] = [0] ∧
    (PoolState.empty.Listen "evt").1.recvBack.getD 0 none = some 0 := by
  decide

/-- Pool well-formedness: every signal the name map points at exists in
the signal store. -/
def PoolWF (st : PoolState) : Prop :=
  ∀ p ∈ st.names, p.2 < st.sigs.length

/-- Get of a well-formed pool yields a signal inside the signal store of
the pool it returns. -/
theorem Get_sid_lt (st : PoolState) (name : String) (hwf : PoolWF st) :
    (st.Get name).1 < (st.Get name).2.sigs.length := by
  cases h : st.load name with
  | some sid =>
    have hm := loadAssoc_mem st.names name sid h
    simpa [PoolState.Get, h] using hwf _ hm
  | none => simp [PoolState.Get, h]

/-- C9 amended: Pool.Listen(name, callback) creates a new Receiver
wrapping the callback and connects it to the signal obtained via
get-or-create for the name — the back-reference of the fresh receiver is
set to that signal and the fresh receiver is appended to the collection
of that signal — but the call returns nothing: the caller receives no
handle with which to later Disconnect the created receiver. -/
theorem C9_listen_connects_fresh_receiver (st : PoolState) (name : String)
    (hwf : PoolWF st) :
    (st.Listen name).2 = none ∧
    (st.Listen name).1.recvBack.get? ((st.Get name).2.recvBack.length) =
      some (some (st.Get name).1) ∧
    (st.Listen name).1.sigs.get? (st.Get name).1 =
      some (((st.Get name).2.sigs.getD (st.Get name).1 []) ++
        [(st.Get name).2.recvBack.length]) := by
  have hlt := Get_sid_lt st name hwf
  refine ⟨rfl, ?_, ?_⟩
  · show (((st.Get name).2.recvBack ++ [none]).set
        ((st.Get name).2.recvBack.length)
        (some (st.Get name).1)).get? ((st.Get name).2.recvBack.length) = _
    exact get?_set_self _ _ _ (by simp)
  · show ((st.Get name).2.sigs.set (st.Get name).1
        (((st.Get name).2.sigs.getD (st.Get name).1 []) ++
          [(st.Get name).2.recvBack.length])).get? (st.Get name).1 = _
    exact get?_set_self _ _ _ hlt

/-- C9 witness: the empty pool is well-formed and Listen on it under the
name "a" connects the fresh receiver 0 to the fresh signal 0 while
returning none. -/
theorem C9_listen_witness :
    PoolWF PoolState.empty ∧
    ((PoolState.empty.Listen "a").2 = none ∧
     (PoolState.empty.Listen "a").1.recvBack.get?
         ((PoolState.empty.Get "a").2.recvBack.length) =
       some (some (PoolState.empty.Get "a").1) ∧
     (PoolState.empty.Listen "a").1.sigs.get? (PoolState.empty.Get "a").1 =
       some (((PoolState.empty.Get "a").2.sigs.getD
           (PoolState.empty.Get "a").1 []) ++
         [(PoolState.empty.Get "a").2.recvBack.length])) :=
  ⟨fun p hp => absurd hp (by simp [PoolState.empty]),
   C9_listen_connects_fresh_receiver PoolState.empty "a"
     (fun p hp => absurd hp (by simp [PoolState.empty]))⟩

end GoSignals
